import Mathlib

/-!
Verification of the rpm-ostree client library (src/lib.rs).

The library has two parts:
* a data model (`Status`, `Deployment`) deserialized from the JSON output of
  the external command, embedded here as Lean structures together with an
  executable decoder following the semantics of the serde-derived
  `Deserialize` implementations (kebab-case field names, unknown fields
  ignored, duplicate known fields rejected, `Option` fields defaulting to
  none when absent, `u32` range enforcement for `serial`);
* the invoker `impl_query_status`, a retry loop around the external command,
  embedded as a function over an abstract command behaviour
  (attempt number to spawn-error-or-output), instrumented with counters for
  the number of attempts made and the number of sleep pauses taken.
-/

/-- A JSON value, as seen by the decoder after parsing.  Integer-valued
numbers and non-integer numbers are distinguished, since deserializing the
`u32` field succeeds only on integers in range; a non-integer number is kept
as a numerator/denominator pair whose exact value the decoder never needs. -/
inductive Json where
  | null : Json
  | bool (b : Bool) : Json
  | intNum (n : Int) : Json
  | fracNum (num : Int) (den : Nat) : Json
  | str (s : String) : Json
  | arr (elems : List Json) : Json
  | obj (fields : List (String × Json)) : Json

/-- The `Deployment` struct of src/lib.rs: one bootable ostree commit.
The Rust `u32` field `serial` is embedded as a `Nat`; the decoder enforces
the `u32` range `serial < 2^32`. -/
structure Deployment where
  unlocked : Option String
  osname : String
  pinned : Bool
  checksum : String
  staged : Option Bool
  booted : Bool
  serial : Nat
  origin : String
deriving DecidableEq, Repr

/-- The `Status` struct of src/lib.rs: the client-side state, an ordered
sequence of deployments. -/
structure Status where
  deployments : List Deployment
deriving DecidableEq, Repr

/-- Deserialize a `String` field: only a JSON string is accepted. -/
def decodeString : Json → Except String String
  | .str s => .ok s
  | _ => .error "invalid type, expected a string"

/-- Deserialize a `bool` field: only a JSON boolean is accepted. -/
def decodeBool : Json → Except String Bool
  | .bool b => .ok b
  | _ => .error "invalid type, expected a boolean"

/-- Deserialize a `u32` field (`serial`): only an integer-valued number in
the range of `u32` is accepted. -/
def decodeU32 : Json → Except String Nat
  | .intNum n => if 0 ≤ n ∧ n < 4294967296 then .ok n.toNat else .error "invalid value, out of range for u32"
  | _ => .error "invalid type, expected u32"

/-- Deserialize an `Option String` field: JSON null maps to `none`,
a string maps to `some`. -/
def decodeOptString : Json → Except String (Option String)
  | .null => .ok none
  | .str s => .ok (some s)
  | _ => .error "invalid type, expected a string or null"

/-- Deserialize an `Option Bool` field: JSON null maps to `none`,
a boolean maps to `some`. -/
def decodeOptBool : Json → Except String (Option Bool)
  | .null => .ok none
  | .bool b => .ok (some b)
  | _ => .error "invalid type, expected a boolean or null"

/-- Accumulator used while visiting the entries of a deployment JSON object
in order, mirroring the serde-generated map visitor: each field slot starts
unset and may be set at most once. -/
structure DepAcc where
  unlocked : Option (Option String)
  osname : Option String
  pinned : Option Bool
  checksum : Option String
  staged : Option (Option Bool)
  booted : Option Bool
  serial : Option Nat
  origin : Option String

/-- The accumulator with every field slot unset. -/
def DepAcc.empty : DepAcc :=
  ⟨none, none, none, none, none, none, none, none⟩

/-- Process a single key/value entry of a deployment object: a known key
must not repeat and its value is deserialized at the field type; an unknown
key is ignored (no `deny_unknown_fields` on the struct). -/
def depFieldStep (acc : DepAcc) (kv : String × Json) : Except String DepAcc :=
  match kv.1 with
  | "unlocked" =>
    if acc.unlocked.isSome then .error "duplicate field unlocked"
    else (decodeOptString kv.2).map (fun u => { acc with unlocked := some u })
  | "osname" =>
    if acc.osname.isSome then .error "duplicate field osname"
    else (decodeString kv.2).map (fun u => { acc with osname := some u })
  | "pinned" =>
    if acc.pinned.isSome then .error "duplicate field pinned"
    else (decodeBool kv.2).map (fun u => { acc with pinned := some u })
  | "checksum" =>
    if acc.checksum.isSome then .error "duplicate field checksum"
    else (decodeString kv.2).map (fun u => { acc with checksum := some u })
  | "staged" =>
    if acc.staged.isSome then .error "duplicate field staged"
    else (decodeOptBool kv.2).map (fun u => { acc with staged := some u })
  | "booted" =>
    if acc.booted.isSome then .error "duplicate field booted"
    else (decodeBool kv.2).map (fun u => { acc with booted := some u })
  | "serial" =>
    if acc.serial.isSome then .error "duplicate field serial"
    else (decodeU32 kv.2).map (fun u => { acc with serial := some u })
  | "origin" =>
    if acc.origin.isSome then .error "duplicate field origin"
    else (decodeString kv.2).map (fun u => { acc with origin := some u })
  | _ => .ok acc

/-- Visit the entries of a deployment object in order. -/
def visitDepFields (acc : DepAcc) : List (String × Json) → Except String DepAcc
  | [] => .ok acc
  | kv :: rest =>
    match depFieldStep acc kv with
    | .error m => .error m
    | .ok acc2 => visitDepFields acc2 rest

/-- Finish deserializing a deployment: every required field must have been
set (checked in declaration order), an absent `Option` field becomes
`none`. -/
def depFinish (acc : DepAcc) : Except String Deployment :=
  match acc.osname with
  | none => .error "missing field osname"
  | some osname =>
  match acc.pinned with
  | none => .error "missing field pinned"
  | some pinned =>
  match acc.checksum with
  | none => .error "missing field checksum"
  | some checksum =>
  match acc.booted with
  | none => .error "missing field booted"
  | some booted =>
  match acc.serial with
  | none => .error "missing field serial"
  | some serial =>
  match acc.origin with
  | none => .error "missing field origin"
  | some origin =>
    .ok { unlocked := acc.unlocked.getD none, osname := osname, pinned := pinned,
          checksum := checksum, staged := acc.staged.getD none, booted := booted,
          serial := serial, origin := origin }

/-- Deserialize a `Deployment` from a JSON value: it must be an object. -/
def decodeDeployment : Json → Except String Deployment
  | .obj fields =>
    match visitDepFields DepAcc.empty fields with
    | .error m => .error m
    | .ok acc => depFinish acc
  | _ => .error "invalid type, expected struct Deployment"

/-- Deserialize each element of a JSON array in order, as the serde
sequence visitor does; the first failing element aborts. -/
def decodeDepList : List Json → Except String (List Deployment)
  | [] => .ok []
  | x :: rest =>
    match decodeDeployment x with
    | .error m => .error m
    | .ok d =>
      match decodeDepList rest with
      | .error m => .error m
      | .ok ds => .ok (d :: ds)

/-- Deserialize a `Vec Deployment` from a JSON value: it must be an array
and every element must deserialize; order is preserved. -/
def decodeDeployments : Json → Except String (List Deployment)
  | .arr elems => decodeDepList elems
  | _ => .error "invalid type, expected a sequence"

/-- Process a single key/value entry of the top-level status object:
`deployments` must not repeat; unknown keys are ignored. -/
def statusFieldStep (acc : Option (List Deployment)) (kv : String × Json) :
    Except String (Option (List Deployment)) :=
  match kv.1 with
  | "deployments" =>
    if acc.isSome then .error "duplicate field deployments"
    else (decodeDeployments kv.2).map (fun ds => some ds)
  | _ => .ok acc

/-- Visit the entries of the top-level status object in order. -/
def visitStatusFields (acc : Option (List Deployment)) :
    List (String × Json) → Except String (Option (List Deployment))
  | [] => .ok acc
  | kv :: rest =>
    match statusFieldStep acc kv with
    | .error m => .error m
    | .ok acc2 => visitStatusFields acc2 rest

/-- Deserialize a `Status` from a JSON value: an object with a required
`deployments` field. -/
def decodeStatus : Json → Except String Status
  | .obj fields =>
    match visitStatusFields none fields with
    | .error m => .error m
    | .ok none => .error "missing field deployments"
    | .ok (some ds) => .ok { deployments := ds }
  | _ => .error "invalid type, expected struct Status"

/-!
The invoker.  The Rust code runs `Command::new("rpm-ostree").args(["status",
"--json"]).output()` inside a loop; each iteration either fails to spawn the
process (the `?` propagates the error at once, aborting the loop) or yields
a captured output: an exit status, stdout, and stderr.  An execution
environment is modelled as a function from the attempt number (1-based) to
that outcome; stdout is carried as an already-parsed JSON value, which the
decoder consumes.
-/

/-- The captured output of one run of the external command: exit-status
success flag, stdout (as parsed JSON), and stderr text. -/
structure CmdOutput where
  success : Bool
  stdout : Json
  stderr : String

/-- Behaviour of the external command: what attempt number `k` produces,
either a spawn error (the command could not be launched) or a captured
output. -/
def CmdBehavior : Type := Nat → Except String CmdOutput

/-- The error taxonomy of the library: spawn failure (could not launch),
command failure (ran but exited non-zero after retries, carrying the final
stderr), decode failure (stdout did not match the schema). -/
inductive QueryError where
  | SpawnFailure (msg : String) : QueryError
  | CommandFailure (stderr : String) : QueryError
  | DecodeFailure (msg : String) : QueryError
deriving DecidableEq, Repr

/-- Render a query error to the single displayable message of the facade
`Error(String)`, following the message construction of src/lib.rs: the
command-failure message interpolates the final stderr text. -/
def QueryError.render : QueryError → String
  | .SpawnFailure msg => "failed to spawn rpm-ostree status: " ++ msg
  | .CommandFailure stderr => "running rpm-ostree status failed: " ++ stderr
  | .DecodeFailure msg => "failed to parse rpm-ostree status output: " ++ msg

/-- The fixed retry bound `max_retries` of `impl_query_status`. -/
def max_retries : Nat := 10

/-- The fixed pause between failed attempts, in seconds (`pause` in
`impl_query_status`). -/
def pause_seconds : Nat := 1

/-- The retry loop of `impl_query_status`.  `retries` is the counter the Rust
code increments at the top of each iteration; `sleeps` counts the executed
`thread::sleep(pause)` calls.  Each iteration runs the command (attempt
number `retries + 1`); a spawn error aborts at once; an output breaks the
loop when the exit status is success or the retry bound is reached, and
otherwise sleeps and iterates.  Returns the loop outcome together with the
number of attempts made and the number of sleeps taken. -/
def retryLoop (run : CmdBehavior) (maxRetries retries sleeps : Nat) :
    Except String CmdOutput × Nat × Nat :=
  match run (retries + 1) with
  | .error e => (.error e, retries + 1, sleeps)
  | .ok res =>
    if res.success = true ∨ maxRetries ≤ retries + 1 then
      (.ok res, retries + 1, sleeps)
    else
      retryLoop run maxRetries (retries + 1) (sleeps + 1)
termination_by maxRetries - retries
decreasing_by
  rename_i hcond
  have : ¬ maxRetries ≤ retries + 1 := fun hh => hcond (Or.inr hh)
  omega

/-- Map a decoder result into the error taxonomy, as the final step of
`impl_query_status` does with its `context` on the serde error. -/
def decodeStatusE (j : Json) : Except QueryError Status :=
  match decodeStatus j with
  | .ok s => .ok s
  | .error m => .error (.DecodeFailure m)

/-- The body of `impl_query_status` over an abstract command behaviour,
instrumented with the attempt and sleep counters of the loop: run the retry
loop; a spawn error becomes a `SpawnFailure`; a final output with non-success
exit becomes a `CommandFailure` carrying that final stderr; otherwise the
final stdout is decoded. -/
def impl_query_status (run : CmdBehavior) :
    Except QueryError Status × Nat × Nat :=
  match retryLoop run max_retries 0 0 with
  | (.error e, attempts, sleeps) => (.error (.SpawnFailure e), attempts, sleeps)
  | (.ok res, attempts, sleeps) =>
    if res.success = true then (decodeStatusE res.stdout, attempts, sleeps)
    else (.error (.CommandFailure res.stderr), attempts, sleeps)

/-- The public facade `query_status`: the result of `impl_query_status` with
every internal error collapsed to its displayable message. -/
def query_status (run : CmdBehavior) : Except String Status :=
  match (impl_query_status run).1 with
  | .ok s => .ok s
  | .error e => .error e.render

/-- One unfolding of the loop when the attempt fails to spawn: the error is
returned at once, the attempt is counted, no sleep is added. -/
theorem retryLoop_spawn_step (run : CmdBehavior) (m r s : Nat) (e : String)
    (h : run (r + 1) = .error e) :
    retryLoop run m r s = (.error e, r + 1, s) := by
  unfold retryLoop
  rw [h]

/-- One unfolding of the loop when the attempt yields an output and the
break condition holds (exit success, or the retry bound is reached). -/
theorem retryLoop_break (run : CmdBehavior) (m r s : Nat) (res : CmdOutput)
    (h : run (r + 1) = .ok res) (hc : res.success = true ∨ m ≤ r + 1) :
    retryLoop run m r s = (.ok res, r + 1, s) := by
  unfold retryLoop
  rw [h]
  simp only [if_pos hc]

/-- One unfolding of the loop when the attempt yields a non-success output
below the retry bound: the loop sleeps once and iterates. -/
theorem retryLoop_retry (run : CmdBehavior) (m r s : Nat) (res : CmdOutput)
    (h : run (r + 1) = .ok res) (hs : res.success = false) (hm : r + 1 < m) :
    retryLoop run m r s = retryLoop run m (r + 1) (s + 1) := by
  have hneg : ¬ (res.success = true ∨ m ≤ r + 1) := by
    rintro (h1 | h2)
    · rw [hs] at h1; exact Bool.false_ne_true h1
    · omega
  conv_lhs => unfold retryLoop
  rw [h]
  simp only [if_neg hneg]

/-- Running the loop across `gap` consecutive non-success attempts adds
`gap` attempts and `gap` sleeps. -/
theorem retryLoop_skip (run : CmdBehavior) (m : Nat) :
    ∀ gap r s,
      (∀ j, r < j → j ≤ r + gap → ∃ o, run j = .ok o ∧ o.success = false) →
      r + gap < m →
      retryLoop run m r s = retryLoop run m (r + gap) (s + gap)
  | 0, r, s, _, _ => by simp
  | gap + 1, r, s, h, hm => by
    obtain ⟨o, ho, hos⟩ := h (r + 1) (by omega) (by omega)
    rw [retryLoop_retry run m r s o ho hos (by omega)]
    have hrec := retryLoop_skip run m gap (r + 1) (s + 1)
      (fun j hj1 hj2 => h j (by omega) (by omega)) (by omega)
    rw [hrec]
    have e1 : r + 1 + gap = r + (gap + 1) := by omega
    have e2 : s + 1 + gap = s + (gap + 1) := by omega
    rw [e1, e2]

/-- When every attempt up to the bound yields a non-success output, the loop
runs all 10 attempts, sleeping between consecutive attempts (9 sleeps), and
ends with the output of attempt 10. -/
theorem retryLoop_exhaust (run : CmdBehavior)
    (h : ∀ k, 1 ≤ k → k ≤ 10 → ∃ o, run k = .ok o ∧ o.success = false)
    (o10 : CmdOutput) (h10 : run 10 = .ok o10) :
    retryLoop run 10 0 0 = (.ok o10, 10, 9) := by
  have hskip := retryLoop_skip run 10 9 0 0
    (fun j hj1 hj2 => h j (by omega) (by omega)) (by omega)
  simp only [Nat.zero_add] at hskip
  rw [hskip]
  exact retryLoop_break run 10 9 9 o10 h10 (Or.inr (by omega))

/-- The output of attempt 10 under an always-failing behaviour is the
output the behaviour reports there. -/
theorem allfail_attempt10 (run : CmdBehavior)
    (h : ∀ k, 1 ≤ k → k ≤ 10 → ∃ o, run k = .ok o ∧ o.success = false) :
    ∃ o10, run 10 = .ok o10 ∧ o10.success = false :=
  h 10 (by omega) (by omega)

/-- Claim C1: when every invocation spawns but exits non-zero, the query
makes exactly 10 attempts and fails with a `CommandFailure` whose message
contains the stderr text of the 10th (final) attempt; the error depends only
on the final stderr, so the stderr of earlier attempts is discarded. -/
theorem query_allfail_ten_attempts_final_stderr (run : CmdBehavior)
    (h : ∀ k, 1 ≤ k → k ≤ max_retries → ∃ o, run k = .ok o ∧ o.success = false)
    (o10 : CmdOutput) (h10 : run 10 = .ok o10) :
    (impl_query_status run).2.1 = 10 ∧
    (impl_query_status run).1 = .error (.CommandFailure o10.stderr) ∧
    ∃ pre, (QueryError.CommandFailure o10.stderr).render = pre ++ o10.stderr := by
  have h' : ∀ k, 1 ≤ k → k ≤ 10 → ∃ o, run k = .ok o ∧ o.success = false := h
  obtain ⟨o, ho, hos⟩ := h' 10 (by omega) (by omega)
  rw [h10] at ho
  injection ho with he
  subst he
  have hloop : retryLoop run max_retries 0 0 = (.ok o10, 10, 9) :=
    retryLoop_exhaust run h' o10 h10
  have himpl : impl_query_status run = (.error (.CommandFailure o10.stderr), 10, 9) := by
    unfold impl_query_status
    rw [hloop]
    simp [hos]
  rw [himpl]
  exact ⟨rfl, rfl, ⟨"running rpm-ostree status failed: ", rfl⟩⟩

/-- A command behaviour that always spawns and always exits non-zero, with a
fixed stderr text. -/
def allFailRun : CmdBehavior :=
  fun _ => .ok ⟨false, .null, "transient failure"⟩

/-- Witness for C1 at a concrete always-failing behaviour. -/
theorem query_allfail_ten_attempts_final_stderr_witness :
    (impl_query_status allFailRun).2.1 = 10 ∧
    (impl_query_status allFailRun).1 =
      .error (.CommandFailure (CmdOutput.mk false .null "transient failure").stderr) ∧
    ∃ pre, (QueryError.CommandFailure
      (CmdOutput.mk false .null "transient failure").stderr).render =
      pre ++ (CmdOutput.mk false .null "transient failure").stderr :=
  query_allfail_ten_attempts_final_stderr allFailRun
    (fun _ _ _ => ⟨⟨false, .null, "transient failure"⟩, rfl, rfl⟩)
    ⟨false, .null, "transient failure"⟩ rfl

/-- Claim C2: when the first 3 invocations exit non-zero and the 4th exits
with status 0, the query succeeds with the status decoded from the 4th
attempt's stdout after exactly 4 attempts and exactly 3 sleeps (one after
each failed attempt, none after the successful one). -/
theorem query_three_failures_then_success (run : CmdBehavior)
    (h3 : ∀ k, 1 ≤ k → k ≤ 3 → ∃ o, run k = .ok o ∧ o.success = false)
    (o4 : CmdOutput) (h4 : run 4 = .ok o4) (hs4 : o4.success = true)
    (st : Status) (hdec : decodeStatus o4.stdout = .ok st) :
    impl_query_status run = (.ok st, 4, 3) := by
  have hskip := retryLoop_skip run 10 3 0 0
    (fun j hj1 hj2 => h3 j (by omega) (by omega)) (by omega)
  simp only [Nat.zero_add] at hskip
  have hbreak : retryLoop run 10 3 3 = (.ok o4, 4, 3) :=
    retryLoop_break run 10 3 3 o4 h4 (Or.inl hs4)
  have hloop : retryLoop run max_retries 0 0 = (.ok o4, 4, 3) := by
    rw [show max_retries = 10 from rfl, hskip, hbreak]
  unfold impl_query_status
  rw [hloop]
  simp [hs4, decodeStatusE, hdec]

/-- The JSON payload of the single silverblue deployment used as a concrete
successful output. -/
def sampleDeploymentJson : Json :=
  .obj [("unlocked", .null), ("osname", .str "fedora"), ("pinned", .bool false),
        ("checksum", .str "abc123"), ("staged", .null), ("booted", .bool true),
        ("serial", .intNum 0), ("origin", .str "fedora:fedora/36/x86_64/silverblue")]

/-- The concrete status payload: one deployment. -/
def sampleStatusJson : Json :=
  .obj [("deployments", .arr [sampleDeploymentJson])]

/-- The decoded model of `sampleStatusJson`. -/
def sampleStatus : Status :=
  ⟨[⟨none, "fedora", false, "abc123", none, true, 0,
     "fedora:fedora/36/x86_64/silverblue"⟩]⟩

/-- A command behaviour that exits non-zero on the first 3 invocations and
succeeds from the 4th on, emitting the sample payload. -/
def flakyRun : CmdBehavior :=
  fun k => if k ≤ 3 then .ok ⟨false, .null, "busy"⟩ else .ok ⟨true, sampleStatusJson, ""⟩

/-- Witness for C2 at a concrete flaky behaviour. -/
theorem query_three_failures_then_success_witness :
    impl_query_status flakyRun = (.ok sampleStatus, 4, 3) :=
  query_three_failures_then_success flakyRun
    (fun k hk1 hk3 => ⟨⟨false, .null, "busy"⟩, by simp [flakyRun, hk3], rfl⟩)
    ⟨true, sampleStatusJson, ""⟩ rfl rfl sampleStatus rfl

/-- Claim C3: a spawn error aborts the query at once with a `SpawnFailure`.
When the command cannot be spawned at all the error arises on attempt 1 and
the query ends with 1 attempt and 0 sleeps — zero retries, zero delays.  In
general, whatever the attempt index `k` at which the spawn error arises (the
earlier attempts having exited non-zero), the query ends at attempt `k` with
the `k - 1` sleeps that preceded the error: no retry and no sleep follows a
spawn error. -/
theorem query_spawn_failure_immediate (run : CmdBehavior) :
    (∀ e, run 1 = .error e →
      impl_query_status run = (.error (.SpawnFailure e), 1, 0)) ∧
    (∀ k e, 1 ≤ k → k ≤ max_retries →
      (∀ j, 1 ≤ j → j < k → ∃ o, run j = .ok o ∧ o.success = false) →
      run k = .error e →
      impl_query_status run = (.error (.SpawnFailure e), k, k - 1)) := by
  have general : ∀ k e, 1 ≤ k → k ≤ max_retries →
      (∀ j, 1 ≤ j → j < k → ∃ o, run j = .ok o ∧ o.success = false) →
      run k = .error e →
      impl_query_status run = (.error (.SpawnFailure e), k, k - 1) := by
    intro k e hk1 hk10 hfail hk
    have hskip := retryLoop_skip run 10 (k - 1) 0 0
      (fun j hj1 hj2 => hfail j (by omega) (by omega)) (by
        have : max_retries = 10 := rfl
        omega)
    simp only [Nat.zero_add] at hskip
    have hstep : retryLoop run 10 (k - 1) (k - 1) = (.error e, k, k - 1) := by
      have he : k - 1 + 1 = k := by omega
      have := retryLoop_spawn_step run 10 (k - 1) (k - 1) e (by rw [he]; exact hk)
      rw [he] at this
      exact this
    have hloop : retryLoop run max_retries 0 0 = (.error e, k, k - 1) := by
      rw [show max_retries = 10 from rfl, hskip, hstep]
    unfold impl_query_status
    rw [hloop]
  refine ⟨?_, general⟩
  intro e h1
  exact general 1 e (by omega) (by rw [show max_retries = 10 from rfl]; omega)
    (fun j hj1 hj2 => absurd hj2 (by omega)) h1

/-- A command behaviour that can never be spawned. -/
def spawnFailRun : CmdBehavior :=
  fun _ => .error "No such file or directory"

/-- Witness for C3 at a concrete never-spawning behaviour. -/
theorem query_spawn_failure_immediate_witness :
    impl_query_status spawnFailRun =
      (.error (.SpawnFailure "No such file or directory"), 1, 0) :=
  (query_spawn_failure_immediate spawnFailRun).1 "No such file or directory" rfl

/-- Claim C4 counterexample: under a concrete behaviour whose every
invocation spawns but exits non-zero, the loop performs 9 sleep pauses, not
10: the code sleeps only between consecutive attempts and breaks right after
the 10th attempt without sleeping. -/
theorem query_worst_case_sleeps_counterexample :
    (impl_query_status allFailRun).2.2 = 9 ∧
    ¬ (impl_query_status allFailRun).2.2 = 10 := by
  have hloop : retryLoop allFailRun 10 0 0 =
      (.ok ⟨false, .null, "transient failure"⟩, 10, 9) :=
    retryLoop_exhaust allFailRun
      (fun _ _ _ => ⟨⟨false, .null, "transient failure"⟩, rfl, rfl⟩)
      ⟨false, .null, "transient failure"⟩ rfl
  have himpl : impl_query_status allFailRun =
      (.error (.CommandFailure "transient failure"), 10, 9) := by
    unfold impl_query_status
    rw [show max_retries = 10 from rfl, hloop]
    rfl
  rw [himpl]
  exact ⟨rfl, by decide⟩

/-- Claim C4 (amended): in the worst case — every invocation spawns but
exits non-zero — the loop makes 10 attempts but performs 9 one-second sleep
pauses (one between each pair of consecutive attempts, none after the last),
blocking the calling thread for up to 9 seconds of sleep plus process
execution time. -/
theorem query_worst_case_nine_sleeps (run : CmdBehavior)
    (h : ∀ k, 1 ≤ k → k ≤ max_retries → ∃ o, run k = .ok o ∧ o.success = false) :
    (impl_query_status run).2.1 = 10 ∧
    (impl_query_status run).2.2 = 9 ∧
    (impl_query_status run).2.2 * pause_seconds = 9 := by
  obtain ⟨o10, h10, hos⟩ := allfail_attempt10 run h
  have hloop : retryLoop run max_retries 0 0 = (.ok o10, 10, 9) :=
    retryLoop_exhaust run h o10 h10
  have himpl : impl_query_status run = (.error (.CommandFailure o10.stderr), 10, 9) := by
    unfold impl_query_status
    rw [hloop]
    simp [hos]
  rw [himpl]
  exact ⟨rfl, rfl, rfl⟩

/-- Witness for the amended C4 at a concrete always-failing behaviour. -/
theorem query_worst_case_nine_sleeps_witness :
    (impl_query_status allFailRun).2.1 = 10 ∧
    (impl_query_status allFailRun).2.2 = 9 ∧
    (impl_query_status allFailRun).2.2 * pause_seconds = 9 :=
  query_worst_case_nine_sleeps allFailRun
    (fun _ _ _ => ⟨⟨false, .null, "transient failure"⟩, rfl, rfl⟩)


/-!
Decoder lemmas: how the field visitor treats unknown, absent, and duplicate
keys, and the range invariant of the `serial` field.
-/

/-- The wire names of the fields of `Deployment` (kebab-case; every name
here has no underscore, so it coincides with the Rust identifier). -/
def deploymentFieldNames : List String :=
  ["unlocked", "osname", "pinned", "checksum", "staged", "booted", "serial", "origin"]

/-- The wire names of the required (non-`Option`) fields of `Deployment`. -/
def requiredDeploymentFields : List String :=
  ["osname", "pinned", "checksum", "booted", "serial", "origin"]

/-- A key that is not a field name of `Deployment` is ignored: the visitor
step leaves the accumulator unchanged. -/
theorem depFieldStep_unknown (acc : DepAcc) (k : String) (v : Json)
    (h : k ∉ deploymentFieldNames) :
    depFieldStep acc (k, v) = .ok acc := by
  simp only [deploymentFieldNames, List.mem_cons, List.not_mem_nil, or_false,
    not_or] at h
  obtain ⟨h1, h2, h3, h4, h5, h6, h7, h8⟩ := h
  unfold depFieldStep
  split <;> simp_all

/-- A key other than `deployments` is ignored by the top-level visitor. -/
theorem statusFieldStep_unknown (acc : Option (List Deployment)) (k : String)
    (v : Json) (h : k ≠ "deployments") :
    statusFieldStep acc (k, v) = .ok acc := by
  unfold statusFieldStep
  split <;> simp_all

/-- A successful visitor step changes only the slot of the key it was given:
every other slot of the accumulator is unchanged. -/
theorem depFieldStep_preserve (acc acc' : DepAcc) (k : String) (v : Json)
    (h : depFieldStep acc (k, v) = .ok acc') :
    (k ≠ "unlocked" → acc'.unlocked = acc.unlocked) ∧
    (k ≠ "osname" → acc'.osname = acc.osname) ∧
    (k ≠ "pinned" → acc'.pinned = acc.pinned) ∧
    (k ≠ "checksum" → acc'.checksum = acc.checksum) ∧
    (k ≠ "staged" → acc'.staged = acc.staged) ∧
    (k ≠ "booted" → acc'.booted = acc.booted) ∧
    (k ≠ "serial" → acc'.serial = acc.serial) ∧
    (k ≠ "origin" → acc'.origin = acc.origin) := by
  unfold depFieldStep at h
  split at h <;>
    first
      | (injection h with he; subst he; simp)
      | (split at h <;>
          first
            | exact Except.noConfusion h
            | (unfold Except.map at h
               split at h <;>
                 first
                   | exact Except.noConfusion h
                   | (injection h with he; subst he; simp_all)))

/-- A slot of the accumulator keeps its value across a whole visit of a
field list in which its key never occurs.  `p` is the slot projection and
`name` its key; `hstep` is the corresponding component of
`depFieldStep_preserve`. -/
theorem visitDepFields_preserve {α : Type} (p : DepAcc → Option α) (name : String)
    (hstep : ∀ acc acc' k v, depFieldStep acc (k, v) = .ok acc' → k ≠ name →
      p acc' = p acc) :
    ∀ fields acc acc', (∀ v, (name, v) ∉ fields) →
      visitDepFields acc fields = .ok acc' → p acc' = p acc
  | [], acc, acc', _, h => by
    unfold visitDepFields at h
    injection h with he
    rw [he]
  | kv :: rest, acc, acc', hni, h => by
    unfold visitDepFields at h
    rcases hs : depFieldStep acc kv with m | acc2
    · rw [hs] at h; exact Except.noConfusion h
    · rw [hs] at h
      have hk : kv.1 ≠ name := by
        intro he
        exact hni kv.2 (by rw [← he]; exact List.mem_cons_self kv rest)
      have h2 : p acc2 = p acc := by
        have : depFieldStep acc (kv.1, kv.2) = .ok acc2 := by
          rw [show (kv.1, kv.2) = kv from rfl]; exact hs
        exact hstep acc acc2 kv.1 kv.2 this hk
      have h1 : p acc' = p acc2 :=
        visitDepFields_preserve p name hstep rest acc2 acc'
          (fun v hv => hni v (List.mem_cons_of_mem kv hv)) h
      rw [h1, h2]

/-- A finished deployment determines the slots of the accumulator: every
required slot was set to the corresponding field of the result, and the
optional fields of the result are the optional slots with `none` as
default. -/
theorem depFinish_ok (acc : DepAcc) (d : Deployment) (h : depFinish acc = .ok d) :
    acc.osname = some d.osname ∧ acc.pinned = some d.pinned ∧
    acc.checksum = some d.checksum ∧ acc.booted = some d.booted ∧
    acc.serial = some d.serial ∧ acc.origin = some d.origin ∧
    d.unlocked = acc.unlocked.getD none ∧ d.staged = acc.staged.getD none := by
  obtain ⟨u, os, p, c, st, b, se, og⟩ := acc
  obtain ⟨du, dos, dp, dc, dst, db, dse, dog⟩ := d
  rcases os with _ | os <;> rcases p with _ | p <;> rcases c with _ | c <;>
    rcases b with _ | b <;> rcases se with _ | se <;> rcases og with _ | og <;>
    simp_all [depFinish]

/-- A deployment list fails to deserialize as soon as one of its elements
does. -/
theorem decodeDepList_mem_error (x : Json) (m : String)
    (hx : decodeDeployment x = .error m) :
    ∀ pre post, ∃ m', decodeDepList (pre ++ x :: post) = .error m'
  | [], post => ⟨m, by rw [List.nil_append]; unfold decodeDepList; rw [hx]⟩
  | y :: pre, post => by
    rw [List.cons_append]
    unfold decodeDepList
    rcases hy : decodeDeployment y with my | d
    · exact ⟨my, rfl⟩
    · obtain ⟨m', hm'⟩ := decodeDepList_mem_error x m hx pre post
      rw [hm']
      exact ⟨m', rfl⟩

/-- Claim C5: an input in which a deployment object lacks one of the
required fields never decodes: at the deployment level the decoder reports
an error for every missing required field, and an entire status payload
containing such a deployment object fails with a `DecodeFailure` — the
decoder is a total function into `Except`, so it neither panics nor
produces a partially populated `Deployment`. -/
theorem decode_missing_required_fails :
    (∀ r fields, r ∈ requiredDeploymentFields → (∀ v, (r, v) ∉ fields) →
      ∃ m, decodeDeployment (.obj fields) = .error m) ∧
    (∀ r fields pre post, r ∈ requiredDeploymentFields → (∀ v, (r, v) ∉ fields) →
      ∃ m, decodeStatusE (.obj [("deployments", .arr (pre ++ .obj fields :: post))]) =
        .error (.DecodeFailure m)) := by
  have part1 : ∀ r fields, r ∈ requiredDeploymentFields → (∀ v, (r, v) ∉ fields) →
      ∃ m, decodeDeployment (.obj fields) = .error m := by
    intro r fields hr hni
    rcases hv : visitDepFields DepAcc.empty fields with m | acc
    · exact ⟨m, by simp only [decodeDeployment]; rw [hv]⟩
    · have hfail : ∀ d, depFinish acc ≠ .ok d := by
        intro d hf
        obtain ⟨h1, h2, h3, h4, h5, h6, _, _⟩ := depFinish_ok acc d hf
        simp only [requiredDeploymentFields, List.mem_cons, List.not_mem_nil,
          or_false] at hr
        rcases hr with rfl | rfl | rfl | rfl | rfl | rfl
        · have hp := visitDepFields_preserve (fun a => a.osname) "osname"
            (fun a a' k v hs hk => (depFieldStep_preserve a a' k v hs).2.1 hk)
            fields DepAcc.empty acc hni hv
          simp only [DepAcc.empty] at hp
          rw [hp] at h1
          exact Option.noConfusion h1
        · have hp := visitDepFields_preserve (fun a => a.pinned) "pinned"
            (fun a a' k v hs hk => (depFieldStep_preserve a a' k v hs).2.2.1 hk)
            fields DepAcc.empty acc hni hv
          simp only [DepAcc.empty] at hp
          rw [hp] at h2
          exact Option.noConfusion h2
        · have hp := visitDepFields_preserve (fun a => a.checksum) "checksum"
            (fun a a' k v hs hk => (depFieldStep_preserve a a' k v hs).2.2.2.1 hk)
            fields DepAcc.empty acc hni hv
          simp only [DepAcc.empty] at hp
          rw [hp] at h3
          exact Option.noConfusion h3
        · have hp := visitDepFields_preserve (fun a => a.booted) "booted"
            (fun a a' k v hs hk => (depFieldStep_preserve a a' k v hs).2.2.2.2.2.1 hk)
            fields DepAcc.empty acc hni hv
          simp only [DepAcc.empty] at hp
          rw [hp] at h4
          exact Option.noConfusion h4
        · have hp := visitDepFields_preserve (fun a => a.serial) "serial"
            (fun a a' k v hs hk => (depFieldStep_preserve a a' k v hs).2.2.2.2.2.2.1 hk)
            fields DepAcc.empty acc hni hv
          simp only [DepAcc.empty] at hp
          rw [hp] at h5
          exact Option.noConfusion h5
        · have hp := visitDepFields_preserve (fun a => a.origin) "origin"
            (fun a a' k v hs hk => (depFieldStep_preserve a a' k v hs).2.2.2.2.2.2.2 hk)
            fields DepAcc.empty acc hni hv
          simp only [DepAcc.empty] at hp
          rw [hp] at h6
          exact Option.noConfusion h6
      rcases hf : depFinish acc with m | d
      · exact ⟨m, by simp only [decodeDeployment]; rw [hv]; exact hf⟩
      · exact absurd hf (hfail d)
  refine ⟨part1, ?_⟩
  intro r fields pre post hr hni
  obtain ⟨m, hm⟩ := part1 r fields hr hni
  obtain ⟨m', hm'⟩ := decodeDepList_mem_error (.obj fields) m hm pre post
  refine ⟨m', ?_⟩
  unfold decodeStatusE decodeStatus visitStatusFields statusFieldStep decodeDeployments
  simp [hm', Except.map]

/-- Witness for C5: a deployment object with no `checksum` entry fails to
decode, alone and inside a status payload. -/
theorem decode_missing_required_fails_witness :
    (∃ m, decodeDeployment (.obj [("osname", .str "fedora"), ("pinned", .bool false),
      ("staged", .null), ("booted", .bool true), ("serial", .intNum 0),
      ("origin", .str "o")]) = .error m) ∧
    (∃ m, decodeStatusE (.obj [("deployments", .arr ([] ++ .obj [("osname", .str "fedora"),
      ("pinned", .bool false), ("staged", .null), ("booted", .bool true),
      ("serial", .intNum 0), ("origin", .str "o")] :: []))]) =
      .error (.DecodeFailure m)) :=
  ⟨decode_missing_required_fails.1 "checksum" _ (by simp [requiredDeploymentFields])
      (fun v => by simp),
   decode_missing_required_fails.2 "checksum" _ [] [] (by simp [requiredDeploymentFields])
      (fun v => by simp)⟩

/-- Inserting an entry with an unrecognized key anywhere in a deployment
object leaves the field visit unchanged. -/
theorem visitDepFields_ignore (k : String) (v : Json) (hk : k ∉ deploymentFieldNames) :
    ∀ f1 f2 acc, visitDepFields acc (f1 ++ (k, v) :: f2) = visitDepFields acc (f1 ++ f2)
  | [], f2, acc => by
    rw [List.nil_append, List.nil_append]
    conv_lhs => unfold visitDepFields
    rw [depFieldStep_unknown acc k v hk]
  | kv :: f1, f2, acc => by
    rw [List.cons_append, List.cons_append]
    unfold visitDepFields
    rcases hs : depFieldStep acc kv with m | acc2
    · rfl
    · exact visitDepFields_ignore k v hk f1 f2 acc2

/-- Inserting an entry with a key other than `deployments` anywhere in the
top-level object leaves the field visit unchanged. -/
theorem visitStatusFields_ignore (k : String) (v : Json) (hk : k ≠ "deployments") :
    ∀ f1 f2 acc, visitStatusFields acc (f1 ++ (k, v) :: f2) = visitStatusFields acc (f1 ++ f2)
  | [], f2, acc => by
    rw [List.nil_append, List.nil_append]
    conv_lhs => unfold visitStatusFields
    rw [statusFieldStep_unknown acc k v hk]
  | kv :: f1, f2, acc => by
    rw [List.cons_append, List.cons_append]
    unfold visitStatusFields
    rcases hs : statusFieldStep acc kv with m | acc2
    · rfl
    · exact visitStatusFields_ignore k v hk f1 f2 acc2

/-- Claim C6: an input matching the schema except for one extra
unrecognized entry — at the top level or inside a deployment object —
decodes to the same value as the input without that entry; the unknown
field is ignored. -/
theorem decode_ignores_unknown_fields :
    (∀ f1 f2 k v s, k ≠ "deployments" →
      decodeStatus (.obj (f1 ++ f2)) = .ok s →
      decodeStatus (.obj (f1 ++ (k, v) :: f2)) = .ok s) ∧
    (∀ f1 f2 k v d, k ∉ deploymentFieldNames →
      decodeDeployment (.obj (f1 ++ f2)) = .ok d →
      decodeDeployment (.obj (f1 ++ (k, v) :: f2)) = .ok d) := by
  constructor
  · intro f1 f2 k v s hk h
    simp only [decodeStatus] at h ⊢
    rw [visitStatusFields_ignore k v hk f1 f2 none]
    exact h
  · intro f1 f2 k v d hk h
    simp only [decodeDeployment] at h ⊢
    rw [visitDepFields_ignore k v hk f1 f2 DepAcc.empty]
    exact h

/-- Witness for C6: adding an unrecognized entry to the sample payload, at
the top level and inside the deployment object, decodes to the same
status and deployment. -/
theorem decode_ignores_unknown_fields_witness :
    (decodeStatus (.obj ([("deployments", .arr [sampleDeploymentJson])] ++
      ("extra-field", .str "ignored") :: [])) = .ok sampleStatus) ∧
    (decodeDeployment (.obj ([] ++ ("extra-field", .bool true) ::
      [("unlocked", .null), ("osname", .str "fedora"), ("pinned", .bool false),
       ("checksum", .str "abc123"), ("staged", .null), ("booted", .bool true),
       ("serial", .intNum 0), ("origin", .str "fedora:fedora/36/x86_64/silverblue")])) =
      .ok ⟨none, "fedora", false, "abc123", none, true, 0,
           "fedora:fedora/36/x86_64/silverblue"⟩) :=
  ⟨decode_ignores_unknown_fields.1 [("deployments", .arr [sampleDeploymentJson])] []
      "extra-field" (.str "ignored") sampleStatus (by decide) rfl,
   decode_ignores_unknown_fields.2 []
      [("unlocked", .null), ("osname", .str "fedora"), ("pinned", .bool false),
       ("checksum", .str "abc123"), ("staged", .null), ("booted", .bool true),
       ("serial", .intNum 0), ("origin", .str "fedora:fedora/36/x86_64/silverblue")]
      "extra-field" (.bool true) _ (by simp [deploymentFieldNames]) rfl⟩

/-- Claim C7: the sample input payload — the parse tree of the JSON text
with one deployment object whose `unlocked` and `staged` are null — decodes
to a `Status` with exactly one `Deployment` whose `booted` is true, `serial`
is 0, `osname` is fedora, `checksum` is abc123, `origin` is the silverblue
ref, `pinned` is false, and whose `unlocked` and `staged` are `none`. -/
theorem decode_sample_end_to_end :
    ∃ d, decodeStatus sampleStatusJson = .ok ⟨[d]⟩ ∧
      d.booted = true ∧ d.serial = 0 ∧ d.osname = "fedora" ∧
      d.checksum = "abc123" ∧ d.origin = "fedora:fedora/36/x86_64/silverblue" ∧
      d.pinned = false ∧ d.unlocked = none ∧ d.staged = none :=
  ⟨⟨none, "fedora", false, "abc123", none, true, 0,
    "fedora:fedora/36/x86_64/silverblue"⟩,
   rfl, rfl, rfl, rfl, rfl, rfl, rfl, rfl, rfl⟩

/-- Claim C9: when the `staged` entry or the `unlocked` entry is entirely
absent from a deployment object that decodes successfully, the decoded
deployment has `staged = none`, respectively `unlocked = none`: absence maps
to the none of the option, not to false or an empty string. -/
theorem decode_absent_optional_none :
    ∀ fields d, decodeDeployment (.obj fields) = .ok d →
      ((∀ v, ("staged", v) ∉ fields) → d.staged = none) ∧
      ((∀ v, ("unlocked", v) ∉ fields) → d.unlocked = none) := by
  intro fields d h
  simp only [decodeDeployment] at h
  rcases hv : visitDepFields DepAcc.empty fields with m | acc
  · rw [hv] at h; exact Except.noConfusion h
  · rw [hv] at h
    obtain ⟨_, _, _, _, _, _, hu, hst⟩ := depFinish_ok acc d h
    constructor
    · intro hni
      have hp := visitDepFields_preserve (fun a => a.staged) "staged"
        (fun a a' k v hs hk => (depFieldStep_preserve a a' k v hs).2.2.2.2.1 hk)
        fields DepAcc.empty acc hni hv
      simp only [DepAcc.empty] at hp
      rw [hst, hp]
      rfl
    · intro hni
      have hp := visitDepFields_preserve (fun a => a.unlocked) "unlocked"
        (fun a a' k v hs hk => (depFieldStep_preserve a a' k v hs).1 hk)
        fields DepAcc.empty acc hni hv
      simp only [DepAcc.empty] at hp
      rw [hu, hp]
      rfl

/-- Witness for C9: the sample deployment object with both optional entries
removed decodes with `staged = none` and `unlocked = none`. -/
theorem decode_absent_optional_none_witness :
    ((∀ v, (("staged" : String), v) ∉ [(("osname" : String), Json.str "fedora"),
        ("pinned", .bool false), ("checksum", .str "abc123"), ("booted", .bool true),
        ("serial", .intNum 0), ("origin", .str "o")]) →
      (Deployment.mk none "fedora" false "abc123" none true 0 "o").staged = none) ∧
    ((∀ v, (("unlocked" : String), v) ∉ [(("osname" : String), Json.str "fedora"),
        ("pinned", .bool false), ("checksum", .str "abc123"), ("booted", .bool true),
        ("serial", .intNum 0), ("origin", .str "o")]) →
      (Deployment.mk none "fedora" false "abc123" none true 0 "o").unlocked = none) :=
  decode_absent_optional_none
    [("osname", .str "fedora"), ("pinned", .bool false), ("checksum", .str "abc123"),
     ("booted", .bool true), ("serial", .intNum 0), ("origin", .str "o")]
    ⟨none, "fedora", false, "abc123", none, true, 0, "o"⟩ rfl

/-- A JSON value that cannot inhabit the `serial` field: a negative
integer, an integer beyond the range of `u32`, or a non-integer number. -/
def badSerial (v : Json) : Prop :=
  (∃ n, v = .intNum n ∧ (n < 0 ∨ 4294967295 < n)) ∨ ∃ a b, v = .fracNum a b

/-- Deserializing the `serial` value fails on every `badSerial` input. -/
theorem decodeU32_bad (v : Json) (h : badSerial v) :
    ∃ m, decodeU32 v = .error m := by
  rcases h with ⟨n, rfl, hn⟩ | ⟨a, b, rfl⟩
  · refine ⟨"invalid value, out of range for u32", ?_⟩
    simp only [decodeU32]
    rw [if_neg]
    omega
  · exact ⟨"invalid type, expected u32", rfl⟩

/-- A successfully deserialized `serial` value is within the range of
`u32`. -/
theorem decodeU32_ok_lt (v : Json) (n : Nat) (h : decodeU32 v = .ok n) :
    n < 4294967296 := by
  cases v <;> simp only [decodeU32] at h <;> try exact Except.noConfusion h
  rename_i m
  split at h
  · injection h with he
    omega
  · exact Except.noConfusion h

/-- The `serial` entry of a deployment object aborts the visit for every
`badSerial` value, whatever the accumulator state. -/
theorem depFieldStep_serial_bad (v : Json) (hv : badSerial v) (acc : DepAcc) :
    ∃ m, depFieldStep acc ("serial", v) = .error m := by
  obtain ⟨m, hm⟩ := decodeU32_bad v hv
  unfold depFieldStep
  rcases hs : acc.serial.isSome with _ | _
  · refine ⟨m, ?_⟩
    simp [hs, hm, Except.map]
  · exact ⟨"duplicate field serial", by simp [hs]⟩

/-- A visit fails whenever the field list contains an entry on which the
step fails for every accumulator state. -/
theorem visitDepFields_entry_fails (kv : String × Json)
    (hkv : ∀ acc, ∃ m, depFieldStep acc kv = .error m) :
    ∀ fields acc, kv ∈ fields → ∃ m, visitDepFields acc fields = .error m
  | [], acc, hm => absurd hm (List.not_mem_nil kv)
  | kv2 :: rest, acc, hm => by
    unfold visitDepFields
    rcases List.mem_cons.mp hm with rfl | hmem
    · obtain ⟨m, hstep⟩ := hkv acc
      rw [hstep]
      exact ⟨m, rfl⟩
    · rcases hs : depFieldStep acc kv2 with m | acc2
      · exact ⟨m, rfl⟩
      · exact visitDepFields_entry_fails kv hkv rest acc2 hmem

/-- Claim C10: a deployment object whose `serial` entry carries a negative
integer, a non-integer number, or an integer above `2^32 - 1` fails to
decode, and every successfully decoded deployment satisfies
`serial ≤ 2^32 - 1` — the in-memory serial lives in the range of `u32`. -/
theorem decode_serial_u32_range :
    (∀ fields v, ("serial", v) ∈ fields → badSerial v →
      ∃ m, decodeDeployment (.obj fields) = .error m) ∧
    (∀ j d, decodeDeployment j = .ok d → d.serial ≤ 4294967295) := by
  constructor
  · intro fields v hmem hbad
    obtain ⟨m, hm⟩ := visitDepFields_entry_fails ("serial", v)
      (depFieldStep_serial_bad v hbad) fields DepAcc.empty hmem
    exact ⟨m, by simp only [decodeDeployment]; rw [hm]⟩
  · intro j d h
    cases j <;> simp only [decodeDeployment] at h <;> try exact Except.noConfusion h
    rename_i fields
    rcases hv : visitDepFields DepAcc.empty fields with m | acc
    · rw [hv] at h; exact Except.noConfusion h
    · rw [hv] at h
      obtain ⟨_, _, _, _, h5, _, _, _⟩ := depFinish_ok acc d h
      have hinv : ∀ fs a a', visitDepFields a fs = .ok a' →
          (a.serial = none ∨ ∃ n, a.serial = some n ∧ n < 4294967296) →
          (a'.serial = none ∨ ∃ n, a'.serial = some n ∧ n < 4294967296) := by
        intro fs
        induction fs with
        | nil =>
          intro a a' hva hi
          unfold visitDepFields at hva
          injection hva with he
          rw [← he]
          exact hi
        | cons kv rest ih =>
          intro a a' hva hi
          unfold visitDepFields at hva
          rcases hs : depFieldStep a kv with m | a2
          · rw [hs] at hva; exact Except.noConfusion hva
          · rw [hs] at hva
            refine ih a2 a' hva ?_
            by_cases hk : kv.1 = "serial"
            · rcases kv with ⟨k, v⟩
              subst hk
              unfold depFieldStep at hs
              simp only at hs
              rcases hacc : a.serial.isSome with _ | _
              · rw [hacc] at hs
                simp only [Bool.false_eq_true, if_false] at hs
                rcases hu : decodeU32 v with m | n
                · rw [hu] at hs; exact Except.noConfusion hs
                · rw [hu] at hs
                  unfold Except.map at hs
                  injection hs with he
                  right
                  exact ⟨n, by rw [← he], decodeU32_ok_lt v n hu⟩
              · rw [hacc] at hs
                simp only [if_true] at hs
                exact Except.noConfusion hs
            · have := (depFieldStep_preserve a a2 kv.1 kv.2
                  (by rw [show (kv.1, kv.2) = kv from rfl]; exact hs)).2.2.2.2.2.2.1 hk
              rw [this]
              exact hi
      have := hinv fields DepAcc.empty acc hv (Or.inl rfl)
      rcases this with hnone | ⟨n, hsome, hlt⟩
      · rw [hnone] at h5; exact Option.noConfusion h5
      · rw [hsome] at h5
        injection h5 with he
        omega

/-- Witness for C10: a negative serial is rejected, and the serial decoded
from the sample deployment object is within range. -/
theorem decode_serial_u32_range_witness :
    (∃ m, decodeDeployment (.obj [(("serial" : String), Json.intNum (-1))]) = .error m) ∧
    (Deployment.mk none "fedora" false "abc123" none true 0
      "fedora:fedora/36/x86_64/silverblue").serial ≤ 4294967295 :=
  ⟨decode_serial_u32_range.1 [("serial", .intNum (-1))] (.intNum (-1))
      (List.mem_singleton.mpr rfl) (Or.inl ⟨-1, rfl, Or.inl (by omega)⟩),
   decode_serial_u32_range.2 sampleDeploymentJson
      ⟨none, "fedora", false, "abc123", none, true, 0,
       "fedora:fedora/36/x86_64/silverblue"⟩ rfl⟩

/-- Modelled from the spec: the repository defines no encoder — `Status` and
`Deployment` only derive `Deserialize` — while §8 of the spec states the
round-trip law `decode(encode(status)) = status` over the wire schema of
§3 and §6.  An optional string is encoded as null when absent. -/
def encodeOptString : Option String → Json
  | none => .null
  | some s => .str s

/-- Modelled from the spec: encoding of an optional boolean, null when
absent. -/
def encodeOptBool : Option Bool → Json
  | none => .null
  | some b => .bool b

/-- Modelled from the spec: the canonical wire form of a deployment, every
field under its kebab-case wire name. -/
def encodeDeployment (d : Deployment) : Json :=
  .obj [("unlocked", encodeOptString d.unlocked), ("osname", .str d.osname),
        ("pinned", .bool d.pinned), ("checksum", .str d.checksum),
        ("staged", encodeOptBool d.staged), ("booted", .bool d.booted),
        ("serial", .intNum (d.serial : Int)), ("origin", .str d.origin)]

/-- Modelled from the spec: the canonical wire form of a status — an object
with the ordered deployment list under `deployments`. -/
def encodeStatus (s : Status) : Json :=
  .obj [("deployments", .arr (s.deployments.map encodeDeployment))]

/-- Decoding inverts the optional-string encoding. -/
theorem decodeOptString_encode (u : Option String) :
    decodeOptString (encodeOptString u) = .ok u := by
  cases u <;> rfl

/-- Decoding inverts the optional-boolean encoding. -/
theorem decodeOptBool_encode (u : Option Bool) :
    decodeOptBool (encodeOptBool u) = .ok u := by
  cases u <;> rfl

/-- Decoding inverts the serial encoding inside the range of `u32`. -/
theorem decodeU32_intNum (n : Nat) (h : n < 4294967296) :
    decodeU32 (.intNum (n : Int)) = .ok n := by
  simp only [decodeU32]
  rw [if_pos ⟨Int.natCast_nonneg n, by exact_mod_cast h⟩]
  simp

/-- A successful step lets the visit move on to the remaining entries. -/
theorem visitDepFields_cons_ok (acc acc2 : DepAcc) (kv : String × Json)
    (rest : List (String × Json)) (h : depFieldStep acc kv = .ok acc2) :
    visitDepFields acc (kv :: rest) = visitDepFields acc2 rest := by
  conv_lhs => unfold visitDepFields
  rw [h]

/-- Evaluation of the visitor step on a fresh `unlocked` entry. -/
theorem depFieldStep_unlocked_ok (acc : DepAcc) (v : Json) (u : Option String)
    (hacc : acc.unlocked = none) (hv : decodeOptString v = .ok u) :
    depFieldStep acc ("unlocked", v) = .ok { acc with unlocked := some u } := by
  have h0 : depFieldStep acc ("unlocked", v) =
      (if acc.unlocked.isSome then .error "duplicate field unlocked"
       else (decodeOptString v).map (fun x => { acc with unlocked := some x })) := rfl
  rw [h0, hacc, hv]
  rfl

/-- Evaluation of the visitor step on a fresh `osname` entry. -/
theorem depFieldStep_osname_ok (acc : DepAcc) (v : Json) (u : String)
    (hacc : acc.osname = none) (hv : decodeString v = .ok u) :
    depFieldStep acc ("osname", v) = .ok { acc with osname := some u } := by
  have h0 : depFieldStep acc ("osname", v) =
      (if acc.osname.isSome then .error "duplicate field osname"
       else (decodeString v).map (fun x => { acc with osname := some x })) := rfl
  rw [h0, hacc, hv]
  rfl

/-- Evaluation of the visitor step on a fresh `pinned` entry. -/
theorem depFieldStep_pinned_ok (acc : DepAcc) (v : Json) (u : Bool)
    (hacc : acc.pinned = none) (hv : decodeBool v = .ok u) :
    depFieldStep acc ("pinned", v) = .ok { acc with pinned := some u } := by
  have h0 : depFieldStep acc ("pinned", v) =
      (if acc.pinned.isSome then .error "duplicate field pinned"
       else (decodeBool v).map (fun x => { acc with pinned := some x })) := rfl
  rw [h0, hacc, hv]
  rfl

/-- Evaluation of the visitor step on a fresh `checksum` entry. -/
theorem depFieldStep_checksum_ok (acc : DepAcc) (v : Json) (u : String)
    (hacc : acc.checksum = none) (hv : decodeString v = .ok u) :
    depFieldStep acc ("checksum", v) = .ok { acc with checksum := some u } := by
  have h0 : depFieldStep acc ("checksum", v) =
      (if acc.checksum.isSome then .error "duplicate field checksum"
       else (decodeString v).map (fun x => { acc with checksum := some x })) := rfl
  rw [h0, hacc, hv]
  rfl

/-- Evaluation of the visitor step on a fresh `staged` entry. -/
theorem depFieldStep_staged_ok (acc : DepAcc) (v : Json) (u : Option Bool)
    (hacc : acc.staged = none) (hv : decodeOptBool v = .ok u) :
    depFieldStep acc ("staged", v) = .ok { acc with staged := some u } := by
  have h0 : depFieldStep acc ("staged", v) =
      (if acc.staged.isSome then .error "duplicate field staged"
       else (decodeOptBool v).map (fun x => { acc with staged := some x })) := rfl
  rw [h0, hacc, hv]
  rfl

/-- Evaluation of the visitor step on a fresh `booted` entry. -/
theorem depFieldStep_booted_ok (acc : DepAcc) (v : Json) (u : Bool)
    (hacc : acc.booted = none) (hv : decodeBool v = .ok u) :
    depFieldStep acc ("booted", v) = .ok { acc with booted := some u } := by
  have h0 : depFieldStep acc ("booted", v) =
      (if acc.booted.isSome then .error "duplicate field booted"
       else (decodeBool v).map (fun x => { acc with booted := some x })) := rfl
  rw [h0, hacc, hv]
  rfl

/-- Evaluation of the visitor step on a fresh `serial` entry. -/
theorem depFieldStep_serial_ok (acc : DepAcc) (v : Json) (u : Nat)
    (hacc : acc.serial = none) (hv : decodeU32 v = .ok u) :
    depFieldStep acc ("serial", v) = .ok { acc with serial := some u } := by
  have h0 : depFieldStep acc ("serial", v) =
      (if acc.serial.isSome then .error "duplicate field serial"
       else (decodeU32 v).map (fun x => { acc with serial := some x })) := rfl
  rw [h0, hacc, hv]
  rfl

/-- Evaluation of the visitor step on a fresh `origin` entry. -/
theorem depFieldStep_origin_ok (acc : DepAcc) (v : Json) (u : String)
    (hacc : acc.origin = none) (hv : decodeString v = .ok u) :
    depFieldStep acc ("origin", v) = .ok { acc with origin := some u } := by
  have h0 : depFieldStep acc ("origin", v) =
      (if acc.origin.isSome then .error "duplicate field origin"
       else (decodeString v).map (fun x => { acc with origin := some x })) := rfl
  rw [h0, hacc, hv]
  rfl

/-- Decoding inverts the deployment encoding when the serial is within the
range of `u32` (which the Rust `u32` field guarantees for every value). -/
theorem decodeDeployment_encode (d : Deployment) (h : d.serial < 4294967296) :
    decodeDeployment (encodeDeployment d) = .ok d := by
  obtain ⟨u, os, p, c, st, b, se, og⟩ := d
  simp only at h
  have hse := decodeU32_intNum se h
  have h0 : decodeDeployment (encodeDeployment ⟨u, os, p, c, st, b, se, og⟩) =
      match visitDepFields DepAcc.empty
        [("unlocked", encodeOptString u), ("osname", .str os), ("pinned", .bool p),
         ("checksum", .str c), ("staged", encodeOptBool st), ("booted", .bool b),
         ("serial", .intNum ((se : Nat) : Int)), ("origin", .str og)] with
      | .error m => .error m
      | .ok acc => depFinish acc := rfl
  rw [h0]
  rw [visitDepFields_cons_ok _ _ _ _
    (depFieldStep_unlocked_ok DepAcc.empty _ u rfl (decodeOptString_encode u))]
  rw [visitDepFields_cons_ok _ _ _ _ (depFieldStep_osname_ok _ (.str os) os rfl rfl)]
  rw [visitDepFields_cons_ok _ _ _ _ (depFieldStep_pinned_ok _ (.bool p) p rfl rfl)]
  rw [visitDepFields_cons_ok _ _ _ _ (depFieldStep_checksum_ok _ (.str c) c rfl rfl)]
  rw [visitDepFields_cons_ok _ _ _ _
    (depFieldStep_staged_ok _ _ st rfl (decodeOptBool_encode st))]
  rw [visitDepFields_cons_ok _ _ _ _ (depFieldStep_booted_ok _ (.bool b) b rfl rfl)]
  rw [visitDepFields_cons_ok _ _ _ _ (depFieldStep_serial_ok _ (.intNum ((se : Nat) : Int)) se rfl hse)]
  rw [visitDepFields_cons_ok _ _ _ _ (depFieldStep_origin_ok _ (.str og) og rfl rfl)]
  rfl

/-- Decoding inverts the encoding of a deployment list, preserving order. -/
theorem decodeDepList_encode (ds : List Deployment)
    (h : ∀ d ∈ ds, d.serial < 4294967296) :
    decodeDepList (ds.map encodeDeployment) = .ok ds := by
  induction ds with
  | nil => rfl
  | cons d rest ih =>
    rw [List.map_cons]
    unfold decodeDepList
    rw [decodeDeployment_encode d (h d (List.mem_cons_self d rest)),
        ih (fun x hx => h x (List.mem_cons_of_mem d hx))]

/-- Claim C8: encoding a `Status` to the wire schema and decoding the result
reproduces the same `Status`, all fields equal and the deployment order
preserved, for every `Status` (every Rust `Status` value carries `u32`
serials, embedded as the hypothesis `serial < 2^32`). -/
theorem decode_encode_roundtrip (s : Status)
    (h : ∀ d ∈ s.deployments, d.serial < 4294967296) :
    decodeStatus (encodeStatus s) = .ok s := by
  obtain ⟨ds⟩ := s
  simp only [Status.deployments] at h
  simp only [encodeStatus, Status.deployments, decodeStatus]
  unfold visitStatusFields statusFieldStep
  simp [decodeDeployments, decodeDepList_encode ds h, Except.map, visitStatusFields]

/-- Witness for C8: the round trip at the concrete sample status. -/
theorem decode_encode_roundtrip_witness :
    decodeStatus (encodeStatus sampleStatus) = .ok sampleStatus :=
  decode_encode_roundtrip sampleStatus (by decide)
